import Mathlib

/-!
Verification of `cloudmesh/common/systeminfo.py`.

The module is a collection of best-effort environment probes aggregated into
an ordered key/value record.  We model the ambient operating system (the
outcome of every external probe: `platform.uname()`, `psutil.virtual_memory()`,
`psutil.cpu_freq()`, `psutil.cpu_count(logical=False)`,
`multiprocessing.cpu_count()`, file reads, `os.environ`, ...) as an explicit
`Env` structure.  A probe that may raise is an `Option` field (`none` models
the probe raising an exception); a probe that may itself return Python `None`
is an `Option (Option _)`.  Python functions become total Lean functions over
`Env`; a Python function that can propagate an exception to its caller returns
`Except Unit _`.

String manipulation (split, strip, substring search, the one regex
substitution) is implemented by structural recursion over `List Char` so that
every definition evaluates by kernel reduction (`decide` / `rfl`).
-/

namespace Sysinfo

/-- Word-for-word transcription target: `readfile` (from `cloudmesh.common.util`,
not part of this file) reads a whole file and raises on failure; every use is
modelled as an `Option String` field of `Env` (`none` = the read raised). -/
abbrev FileRead := Option String

/- ### List-of-characters string helpers -/

/-- Does the second list start with the first (the pattern)? -/
def startsWithCh : List Char → List Char → Bool
  | [], _ => true
  | _ :: _, [] => false
  | p :: ps, c :: cs => p == c && startsWithCh ps cs

/-- Python `pat in s` (contiguous substring containment) on char lists. -/
def containsSub (pat : List Char) : List Char → Bool
  | [] => startsWithCh pat []
  | c :: rest => startsWithCh pat (c :: rest) || containsSub pat rest

/-- Split at the first occurrence of `c` (Python `s.split(c, 1)` when it
succeeds); `none` when `c` does not occur. -/
def splitFirst (c : Char) : List Char → Option (List Char × List Char)
  | [] => none
  | a :: as =>
    if a == c then some ([], as)
    else
      match splitFirst c as with
      | none => none
      | some (l, r) => some (a :: l, r)

/-- Split at the last occurrence of `c`; `none` when `c` does not occur. -/
def splitLast (c : Char) : List Char → Option (List Char × List Char)
  | [] => none
  | a :: as =>
    match splitLast c as with
    | some (l, r) => some (a :: l, r)
    | none => if a == c then some ([], as) else none

/-- Split on every occurrence of `c` (like Python `s.split(c)`): always
returns at least one piece. -/
def splitCharAll (c : Char) : List Char → List (List Char)
  | [] => [[]]
  | a :: as =>
    match splitCharAll c as with
    | [] => [[a]]
    | h :: t => if a == c then [] :: h :: t else (a :: h) :: t

/-- Drop a trailing empty piece. -/
def dropTrailingEmpty : List (List Char) → List (List Char)
  | [] => []
  | [x] => if x.isEmpty then [] else [x]
  | x :: y :: rest => x :: dropTrailingEmpty (y :: rest)

/-- Python `str.splitlines()` (newline-separated content; we model `\n` as the
only line terminator, which covers the `/etc/*release` and `/proc/cpuinfo`
contents in scope). -/
def pySplitlines (cs : List Char) : List (List Char) :=
  match cs with
  | [] => []
  | _ :: _ => dropTrailingEmpty (splitCharAll '\n' cs)

/-- Drop leading whitespace. -/
def dropLeadingWs : List Char → List Char
  | [] => []
  | a :: as => if a.isWhitespace then dropLeadingWs as else a :: as

/-- Python `str.strip()`: remove leading and trailing whitespace. -/
def pyStrip (cs : List Char) : List Char :=
  (dropLeadingWs (dropLeadingWs cs.reverse).reverse)

/-- Python `s.replace(" ", "")`: remove every space. -/
def removeSpaces (cs : List Char) : List Char := cs.filter (fun c => !(c == ' '))

/-- Rebuild a `String` from chars. -/
def ofChars (cs : List Char) : String := ⟨cs⟩

/-- First-occurrence lookup in an association list with string keys (models
`dict.__getitem__` / `in` on dicts whose keys are unique, and `getattr` on a
fixed field set). -/
def lookupKey {α : Type} : List (String × α) → String → Option α
  | [], _ => none
  | p :: rest, k => if p.1 == k then some p.2 else lookupKey rest k

/- ### Decimal rendering of natural numbers (Python `str` / `"%d"`) -/

/-- Digit accumulator for `natStr`; fuel-based so it is structural recursion
(and hence kernel-reducible).  `natDigsAux fuel n` is the decimal digit list
of `n` provided `fuel > log10 n`. -/
def natDigsAux : Nat → Nat → List Char
  | 0, _ => []
  | fuel + 1, n => if n == 0 then [] else natDigsAux fuel (n / 10) ++ [Nat.digitChar (n % 10)]

/-- Decimal rendering of a natural number, as Python `str`/`"%d"` produce it. -/
def natStr (n : Nat) : String := if n == 0 then "0" else ofChars (natDigsAux (n + 1) n)

/-- `%.1f`-style rendering of the rational `t/10`: integral part, dot, one
tenths digit. -/
def fmtOneDecimal (t : Nat) : String := natStr (t / 10) ++ "." ++ natStr (t % 10)

/-- Nearest-tenth rounding of `n / d` (models `%.1f` applied to the float
quotient; exact-rational round-half-up stands in for binary-float rounding,
which only perturbs the final digit, never the `<number> <unit>` shape). -/
def roundTenths (n d : Nat) : Nat := (10 * n + d / 2) / d

/-- The binary-unit suffixes of `humanize.naturalsize(..., binary=True)`. -/
def binSuffixes : List String := ["KiB", "MiB", "GiB", "TiB", "PiB", "EiB", "ZiB", "YiB"]

/-- The suffix-selection loop of `humanize.naturalsize` (binary mode):
`div` is `1024^(i+1)` when looking at suffix `i`; a value below
`div * 1024` is rendered against `div`; the last suffix is used as the
fallback for astronomically large values, with the same divisor. -/
def nsFrom : List String → Nat → Nat → String
  | [], n, d => fmtOneDecimal (roundTenths n d) ++ " " ++ "YiB"
  | [s], n, d => fmtOneDecimal (roundTenths n d) ++ " " ++ s
  | s :: s' :: rest, n, d =>
    if n < d * 1024 then fmtOneDecimal (roundTenths n d) ++ " " ++ s
    else nsFrom (s' :: rest) n (d * 1024)

/-- Model of `humanize.naturalsize(value, binary=True)` on a natural number:
`"1 Byte"` for one, `"<n> Bytes"` below 1024, otherwise `"%.1f <unit>"`
against the first binary unit that exceeds the value. -/
def naturalsizeBinary (n : Nat) : String :=
  if n == 1 then "1 Byte"
  else if n < 1024 then natStr n ++ " " ++ "Bytes"
  else nsFrom binSuffixes n 1024

/- ### The ambient environment -/

/-- The result record of `platform.uname()`. -/
structure Uname where
  system : String
  node : String
  release : String
  version : String
  machine : String
  processor : String
deriving DecidableEq

/-- The result of `psutil.virtual_memory()`: the stringified `percent` field
plus the set of size attributes the platform supports (`getattr` on a missing
attribute raises, modelled by `lookupKey _ = none`). -/
structure Mem where
  percentStr : String
  stats : List (String × Nat)
deriving DecidableEq

/-- The structured result of a successful `psutil.cpu_freq()` call. -/
structure Freq where
  current : Nat
  minF : Nat
  maxF : Nat
deriving DecidableEq

/-- Python values that can appear in the returned record. -/
inductive Value where
  | str : String → Value
  | int : Nat → Value
  | pynone : Value
  | freq : Freq → Value
  | tuple : List String → Value
deriving DecidableEq

/-- The ambient operating system, as observed through every external probe the
module performs.  An `Option` probe with value `none` models the underlying
call raising an exception; `Option (Option _)` additionally distinguishes the
call returning Python `None`. -/
structure Env where
  /-- `sys.platform` -/
  sysPlatform : String
  /-- `platform.system()` -/
  platformSystem : String
  /-- `readfile('/etc/os-release')` -/
  osRelease : FileRead
  /-- `os.environ` -/
  environ : List (String × String)
  /-- `platform.uname()` -/
  unameProbe : Option Uname
  /-- `psutil.virtual_memory()` -/
  virtualMemoryProbe : Option Mem
  /-- `psutil.cpu_freq()` (may raise, or return `None`) -/
  cpuFreqProbe : Option (Option Freq)
  /-- `psutil.cpu_count(logical=False)` (may raise, or return `None`) -/
  cpuCountPhysProbe : Option (Option Nat)
  /-- `multiprocessing.cpu_count()` -/
  mpCpuCountProbe : Option Nat
  /-- `readfile("/proc/cpuinfo")` -/
  cpuinfoFile : FileRead
  /-- `os.popen("sysctl -n machdep.cpu.brand_string").read()` -/
  sysctlProbe : Option String
  /-- `platform.processor()` -/
  processorProbe : Option String
  /-- `platform.mac_ver()[0]` -/
  macVer : String
  /-- `platform.win32_ver()` (a tuple of strings) -/
  winVer : List String
  /-- `pip.__version__` -/
  pipVersion : String
  /-- `sys.version` -/
  sysVersion : String
  /-- `Path("/etc").glob("*release")` + `readfile` on each: `none` when the
  glob itself raises; each entry is one file's content (`none` = that read
  raised, which aborts the remainder of the loop). -/
  releaseFilesProbe : Option (List FileRead)
deriving DecidableEq

/- ### The ordered record and its update operation -/

/-- The `OrderedDict` built by `systeminfo`: an ordered association list with
unique keys. -/
abbrev Record := List (String × Value)

/-- Python `d[k] = v` on a unique-key ordered dict: replace in place if the
key is present, append otherwise. -/
def setKey : Record → String → Value → Record
  | [], k, v => [(k, v)]
  | p :: rest, k, v => if p.1 == k then (k, v) :: rest else p :: setKey rest k v

/-- Python `d[k]` / `k in d` (as an `Option`). -/
def getKey (d : Record) (k : String) : Option Value := lookupKey d k

/- ### Transcribed functions -/

/-- `os_is_linux` (lines 26–37): reads `/etc/os-release`, and on success
returns `platform.system() == "Linux" and "raspbian" not in content`; the
bare `except` returns `False`. -/
def os_is_linux (env : Env) : Bool :=
  match env.osRelease with
  | none => false
  | some content =>
    env.platformSystem == "Linux" && !(containsSub "raspbian".data content.data)

/-- `os_is_pi` (lines 51–62): same read, but requires `"raspbian" in content`. -/
def os_is_pi (env : Env) : Bool :=
  match env.osRelease with
  | none => false
  | some content =>
    env.platformSystem == "Linux" && containsSub "raspbian".data content.data

/-- `sys_user` (lines 64–82): `"collab"` on a `COLAB_GPU` marker, then
`os.environ["USERNAME"]` on win32 (a `KeyError` falls through), then
`os.environ["USER"]`, then `"root"` when `os.environ["HOME"] == "/root"`,
else the literal string `"None"`. -/
def sys_user (env : Env) : String :=
  if (lookupKey env.environ "COLAB_GPU").isSome then "collab"
  else
    match (if env.sysPlatform == "win32" then lookupKey env.environ "USERNAME" else none) with
    | some u => u
    | none =>
      match lookupKey env.environ "USER" with
      | some u => u
      | none =>
        match lookupKey env.environ "HOME" with
        | some h => if h == "/root" then "root" else "None"
        | none => "None"

/-- `get_platform` (lines 143–156): `"macos"` on darwin, `"windows"` on
win32; otherwise read `/etc/os-release` and return `"raspberry"` when the
platform is linux and the content mentions raspbian, falling back to
`sys.platform` in every other case, including a failed read. -/
def get_platform (env : Env) : String :=
  if env.sysPlatform == "darwin" then "macos"
  else if env.sysPlatform == "win32" then "windows"
  else
    match env.osRelease with
    | none => env.sysPlatform
    | some content =>
      if env.sysPlatform == "linux" && containsSub "raspbian".data content.data then
        "raspberry"
      else env.sysPlatform

/-- `re.sub(".*model name.*:", "", line, 1)`: the greedy pattern consumes up
to the last `:` preceded by an occurrence of `"model name"`; when any colon
qualifies the last one does, so the result is the suffix after the last
colon, and the line is unchanged when there is no match. -/
def modelNameSub (cs : List Char) : List Char :=
  match splitLast ':' cs with
  | some (before, after) =>
    if containsSub "model name".data before then after else cs
  | none => cs

/-- The CPU-description block of `systeminfo` (lines 182–194): macOS shells
out to `sysctl`, the `"win32"` arm calls `platform.processor()` (dead in
practice, since `get_platform` maps win32 to `"windows"`), linux scans
`/proc/cpuinfo` keeping the substitution result of the last `"model name"`
line; any exception leaves the running value (initially `""`). -/
def cpuDescription (env : Env) (osys : String) : String :=
  if osys == "macos" then (env.sysctlProbe).getD ""
  else if osys == "win32" then (env.processorProbe).getD ""
  else if osys == "linux" then
    match env.cpuinfoFile with
    | none => ""
    | some content =>
      (pySplitlines (pyStrip content.data)).foldl
        (fun acc line =>
          if containsSub "model name".data line then ofChars (modelNameSub line) else acc)
        ""
  else ""

/-- The `frequency` value (lines 170–173): a raising `psutil.cpu_freq()` is
replaced by `None`; a successful call may itself return `None`. -/
def frequencyValue : Option (Option Freq) → Value
  | none => .pynone
  | some none => .pynone
  | some (some f) => .freq f

/-- The `cores` value (lines 175–178): a raising
`psutil.cpu_count(logical=False)` is replaced by the string `"unkown"`
(sic); a successful call may return `None` or an integer. -/
def coresValue : Option (Option Nat) → Value
  | none => .str "unkown"
  | some none => .pynone
  | some (some n) => .int n

/-- The `OrderedDict` literal of lines 197–215, given the already-obtained
`uname`, `mem` and `multiprocessing.cpu_count()` results. -/
def baseData (env : Env) (uname : Uname) (mem : Mem) (cpuCount : Nat) : Record :=
  [ ("cpu", .str (ofChars (pyStrip (cpuDescription env (get_platform env)).data))),
    ("cpu_count", .int cpuCount),
    ("cpu_threads", .int cpuCount),
    ("cpu_cores", coresValue env.cpuCountPhysProbe),
    ("uname.system", .str uname.system),
    ("uname.node", .str uname.node),
    ("uname.release", .str uname.release),
    ("uname.version", .str uname.version),
    ("uname.machine", .str uname.machine),
    ("uname.processor", .str uname.processor),
    ("sys.platform", .str env.sysPlatform),
    ("python", .str env.sysVersion),
    ("python.version", .str (ofChars ((splitFirst ' ' env.sysVersion.data).map Prod.fst |>.getD env.sysVersion.data))),
    ("python.pip", .str env.pipVersion),
    ("user", .str (sys_user env)),
    ("mem.percent", .str (mem.percentStr ++ " %")),
    ("frequency", frequencyValue env.cpuFreqProbe) ]

/-- The attribute list of the memory loop (lines 216–223). -/
def memAttributes : List String :=
  ["total", "available", "used", "free", "active", "inactive", "wired"]

/-- One iteration of the memory loop (lines 224–228): the attribute is
fetched with `getattr` and formatted with
`humanize.naturalsize(..., binary=True)` inside its own `try`, so an
unsupported attribute is simply skipped. -/
def memStep (mem : Mem) (acc : Record) (a : String) : Record :=
  match lookupKey mem.stats a with
  | some n => setKey acc ("mem." ++ a) (.str (naturalsizeBinary n))
  | none => acc

/-- The memory loop (lines 216–228). -/
def memFold (mem : Mem) (d : Record) : Record :=
  memAttributes.foldl (memStep mem) d

/-- Lines 231–236: `platform.version` from `mac_ver` on darwin, the
`win32_ver` tuple on win32, `uname.version` otherwise (the code branches on
`data['sys.platform']`, which was just set to `sys.platform`). -/
def platformVersion (env : Env) (uname : Uname) (d : Record) : Record :=
  if env.sysPlatform == "darwin" then setKey d "platform.version" (.str env.macVer)
  else if env.sysPlatform == "win32" then setKey d "platform.version" (.tuple env.winVer)
  else setKey d "platform.version" (.str uname.version)

/-- One line of the release-file loop (lines 242–246): lines with `=` are
split at the first `=`, spaces are removed from the key, and the pair is
stored; lines without `=` are skipped. -/
def applyReleaseLine (d : Record) (line : String) : Record :=
  match splitFirst '=' line.data with
  | none => d
  | some (a, v) => setKey d (ofChars (removeSpaces a)) (.str (ofChars v))

/-- All lines of one release file's content, in order. -/
def mergeReleaseLines (d : Record) (lines : List (List Char)) : Record :=
  lines.foldl (fun acc l => applyReleaseLine acc (ofChars l)) d

/-- One release file's content, split into lines. -/
def mergeReleaseContent (d : Record) (content : String) : Record :=
  mergeReleaseLines d (pySplitlines content.data)

/-- The release-file loop (lines 238–248): files are processed in order; a
raising `readfile` aborts the rest of the loop (the surrounding `try`
swallows the exception) but keeps what was already merged. -/
def mergeReleaseFiles (d : Record) : List FileRead → Record
  | [] => d
  | none :: _ => d
  | some c :: rest => mergeReleaseFiles (mergeReleaseContent d c) rest

/-- Lines 251–254 of the caller-override block: overwrite `user`, then
`uname.node` (each only when supplied). -/
def applyUserNode (d : Record) (user node : Option String) : Record :=
  let d2 := match user with
    | none => d
    | some u => setKey d "user" (.str u)
  match node with
  | none => d2
  | some n => setKey d2 "uname.node" (.str n)

/-- The caller-override block (lines 249–254): merge `info` (a `dict.update`,
i.e. a left fold of key assignments), then overwrite `user`, then
`uname.node`. -/
def applyOverrides (d : Record) (info : Option Record) (user : Option String)
    (node : Option String) : Record :=
  applyUserNode
    (match info with
     | none => d
     | some i => i.foldl (fun acc p => setKey acc p.1 p.2) d)
    user node

/-- The record `systeminfo` assembles before caller overrides (lines
197–248): the `OrderedDict` literal, then the memory loop, then
`platform.version`, then the release-file merge (skipped entirely when the
glob raises). -/
def probedRecord (env : Env) (uname : Uname) (mem : Mem) (cpuCount : Nat) : Record :=
  match env.releaseFilesProbe with
  | none => platformVersion env uname (memFold mem (baseData env uname mem cpuCount))
  | some files =>
    mergeReleaseFiles (platformVersion env uname (memFold mem (baseData env uname mem cpuCount))) files

/-- `systeminfo` (lines 158–255).  The three probes the source leaves outside
any `try` — `platform.uname()` (line 159), `psutil.virtual_memory()`
(line 160) and `multiprocessing.cpu_count()` (line 199) — propagate their
exception to the caller (`Except.error`); everything else is fault-isolated. -/
def systeminfo (env : Env) (info : Option Record) (user : Option String)
    (node : Option String) : Except Unit Record :=
  match env.unameProbe with
  | none => .error ()
  | some uname =>
    match env.virtualMemoryProbe with
    | none => .error ()
    | some mem =>
      match env.mpCpuCountProbe with
      | none => .error ()
      | some cpuCount =>
        .ok (applyOverrides (probedRecord env uname mem cpuCount) info user node)

/- ### Derived observations used by the claims -/

/-- Key presence (`k in d`). -/
def hasKey (d : Record) (k : String) : Bool := (getKey d k).isSome

/-- Did the call return a record (as opposed to propagating an exception)? -/
def returnsRecord (e : Except Unit Record) : Bool :=
  match e with
  | .ok _ => true
  | .error _ => false

/-- Is a record value a Python integer? -/
def isIntValue : Value → Bool
  | .int _ => true
  | _ => false

/-- The record of a successful call (`[]` for a propagated exception); used
only to phrase closed evaluations. -/
def recOf (e : Except Unit Record) : Record :=
  match e with
  | .ok r => r
  | .error _ => []

/-- Does a release-file line store under key `k`? -/
def lineDefines (line : String) (k : String) : Bool :=
  match splitFirst '=' line.data with
  | none => false
  | some (a, _) => ofChars (removeSpaces a) == k

/-- Does one release file's content store under key `k`? -/
def contentDefines (content : String) (k : String) : Bool :=
  (pySplitlines content.data).any (fun l => lineDefines (ofChars l) k)

/-- Does one (possibly unreadable) release file store under key `k`? -/
def fileDefines (f : FileRead) (k : String) : Bool :=
  match f with
  | none => false
  | some c => contentDefines c k

/-- Does any scanned release file store under key `k`? -/
def envReleaseDefines (env : Env) (k : String) : Bool :=
  match env.releaseFilesProbe with
  | none => false
  | some files => files.any (fun f => fileDefines f k)

/-- The binary-size-string shape `<number><space><unit>`. -/
def sizeUnits : List String :=
  ["Byte", "Bytes", "KiB", "MiB", "GiB", "TiB", "PiB", "EiB", "ZiB", "YiB"]

/-- Nonempty, and only digits and dots. -/
def isNumChars (cs : List Char) : Bool :=
  !cs.isEmpty && cs.all (fun c => c.isDigit || c == '.')

/-- `s` matches `<number> <unit>` with a binary (or byte) unit. -/
def isSizeString (s : String) : Bool :=
  match splitCharAll ' ' s.data with
  | [num, unit] => isNumChars num && sizeUnits.contains (ofChars unit)
  | _ => false

/- ### Concrete environments for evaluations -/

/-- The virtual-memory snapshot of the healthy Linux host below: `wired` is
(as on real Linux) not among the supported attributes. -/
def mLinux : Mem :=
  { percentStr := "61.9"
    stats := [("total", 17179869184), ("available", 6552825856),
              ("used", 9000000000), ("free", 1000000000),
              ("active", 2000000000), ("inactive", 3000000000)] }

/-- A healthy Linux host: every probe succeeds, and `/etc/os-release` carries
ordinary `KEY=VALUE` lines. -/
def envLinux : Env :=
  { sysPlatform := "linux"
    platformSystem := "Linux"
    osRelease := some "NAME=Ubuntu\nVERSION ID=20.04\n"
    environ := [("USER", "alice"), ("HOME", "/home/alice")]
    unameProbe := some ⟨"Linux", "myhost", "5.15.0", "#1 SMP", "x86_64", "x86_64"⟩
    virtualMemoryProbe := some mLinux
    cpuFreqProbe := some (some ⟨2600, 1200, 3400⟩)
    cpuCountPhysProbe := some (some 4)
    mpCpuCountProbe := some 8
    cpuinfoFile := some "processor : 0\nmodel name : Intel(R) Xeon(R) CPU\n"
    sysctlProbe := none
    processorProbe := none
    macVer := ""
    winVer := []
    pipVersion := "23.0"
    sysVersion := "3.10.2 (main, Jan 1 2022)"
    releaseFilesProbe := some [some "NAME=Ubuntu\nVERSION ID=20.04\nmalformed line\n"] }

/-- The same host, but `platform.uname()` raises. -/
def envUnameRaises : Env :=
  { envLinux with unameProbe := none }

/-- The same host, but `psutil.cpu_count(logical=False)` raises. -/
def envCoresRaise : Env :=
  { envLinux with cpuCountPhysProbe := none }

/-- The same host, but a scanned `/etc/*release` file carries a line whose
key collides with a memory field. -/
def envMemClobber : Env :=
  { envLinux with releaseFilesProbe := some [some "mem.total=banana\n"] }

/-- A host with no user-identity signal at all: empty process environment. -/
def envNoSignals : Env :=
  { envLinux with environ := [] }

/-- A Windows host: `sys.platform == "win32"` and `platform.processor()`
answers with a processor name. -/
def envWindows : Env :=
  { sysPlatform := "win32"
    platformSystem := "Windows"
    osRelease := none
    environ := [("USERNAME", "bob")]
    unameProbe := some ⟨"Windows", "winhost", "10", "10.0.19041", "AMD64", "Intel64 Family 6"⟩
    virtualMemoryProbe := some ⟨"40.0", [("total", 34359738368), ("available", 20000000000),
                                         ("used", 14000000000), ("free", 20000000000)]⟩
    cpuFreqProbe := some (some ⟨3000, 0, 3000⟩)
    cpuCountPhysProbe := some (some 6)
    mpCpuCountProbe := some 12
    cpuinfoFile := none
    sysctlProbe := none
    processorProbe := some "Intel64 Family 6 Model 142 Stepping 10, GenuineIntel"
    macVer := ""
    winVer := ["10", "10.0.19041", "SP0", "Multiprocessor Free"]
    pipVersion := "23.0"
    sysVersion := "3.10.2 (tags)"
    releaseFilesProbe := none }

/-- A macOS host. -/
def envDarwin : Env :=
  { envWindows with
      sysPlatform := "darwin"
      platformSystem := "Darwin"
      environ := [("USER", "carol")]
      sysctlProbe := some "Apple M1\n"
      processorProbe := none
      macVer := "12.4"
      winVer := [] }

/-- A Raspberry-Pi host: linux platform and an OS-release file mentioning
raspbian. -/
def envRasp : Env :=
  { envLinux with
      osRelease := some "NAME=Raspbian GNU/Linux\nID=raspbian\n"
      releaseFilesProbe := some [some "NAME=Raspbian GNU/Linux\nID=raspbian\n"] }

/-- An exotic platform whose OS-release read fails. -/
def envOther : Env :=
  { envLinux with
      sysPlatform := "freebsd"
      platformSystem := "FreeBSD"
      osRelease := none
      releaseFilesProbe := none }

/-- The record of a plain `systeminfo()` call on the healthy Linux host. -/
def rPlain : Record := recOf (systeminfo envLinux none none none)

/-- The record of a call overriding `cpu` through `info`. -/
def rCpu : Record :=
  recOf (systeminfo envLinux (some [("cpu", .str "TestCPU")]) none none)

/-- The record of a call overriding `user`. -/
def rUser : Record := recOf (systeminfo envLinux none (some "alice") none)

/-- The record of a call overriding `node`. -/
def rNode : Record := recOf (systeminfo envLinux none none (some "node9"))

/- ### Record-operation lemmas -/

theorem getKey_setKey_self (d : Record) (k : String) (v : Value) :
    getKey (setKey d k v) k = some v := by
  induction d with
  | nil => simp [setKey, getKey, lookupKey]
  | cons p rest ih =>
    by_cases h : p.1 == k
    · simp [setKey, h, getKey, lookupKey]
    · simpa [setKey, h, getKey, lookupKey] using ih

theorem getKey_setKey_ne (d : Record) {k k' : String} (v : Value)
    (h : (k' == k) = false) : getKey (setKey d k' v) k = getKey d k := by
  induction d with
  | nil => simp [setKey, getKey, lookupKey, h]
  | cons p rest ih =>
    by_cases hp : p.1 == k'
    · have hpk : (p.1 == k) = false := by
        rcases eq_of_beq hp with rfl
        exact h
      simp [setKey, hp, getKey, lookupKey, h, hpk]
    · by_cases hpk : p.1 == k
      · simp [setKey, hp, getKey, lookupKey, hpk]
      · simpa [setKey, hp, getKey, lookupKey, hpk] using ih

theorem hasKey_setKey_mono (d : Record) (k k' : String) (v : Value)
    (h : hasKey d k = true) : hasKey (setKey d k' v) k = true := by
  by_cases hk : k' == k
  · rcases eq_of_beq hk with rfl
    simp [hasKey, getKey_setKey_self]
  · simp only [Bool.not_eq_true] at hk
    simpa [hasKey, getKey_setKey_ne d v hk] using h

theorem hasKey_ne_nil {d : Record} {k : String} (h : hasKey d k = true) : d ≠ [] := by
  intro hd
  subst hd
  simp [hasKey, getKey, lookupKey] at h

/- ### String-key inequality helpers -/

theorem dataAppend (s t : String) : (s ++ t).data = s.data ++ t.data := rfl

theorem strBeqFalse {s t : String} (h : s.data ≠ t.data) : (s == t) = false := by
  by_cases hb : s == t
  · rcases eq_of_beq hb with rfl
    exact absurd rfl h
  · simpa using hb

theorem strBeqFalse_of_ne {s t : String} (h : s ≠ t) : (s == t) = false :=
  strBeqFalse (fun hd => h (String.ext hd))

theorem memKey_beq (x y : String) : (("mem." ++ x) == ("mem." ++ y)) = (x == y) := by
  by_cases hb : x == y
  · rcases eq_of_beq hb with rfl
    simp
  · simp only [Bool.not_eq_true] at hb
    rw [hb]
    apply strBeqFalse
    rw [dataAppend, dataAppend]
    intro h
    exact ne_of_beq_false hb (String.ext (List.append_cancel_left h))

theorem platformKey_ne_memKey (a : String) :
    (("platform.version" : String) == "mem." ++ a) = false := by
  apply strBeqFalse
  rw [dataAppend]
  intro h
  have hh := congrArg (fun l => l.headD ' ') h
  simp at hh

/- ### Pipeline preservation lemmas -/

theorem getKey_memSteps_ne (mem : Mem) (attrs : List String) (d : Record) {k : String}
    (h : ∀ a ∈ attrs, (("mem." ++ a) == k) = false) :
    getKey (attrs.foldl (memStep mem) d) k = getKey d k := by
  induction attrs generalizing d with
  | nil => rfl
  | cons b rest ih =>
    have hb := h b (List.mem_cons_self b rest)
    have hrest : ∀ a ∈ rest, (("mem." ++ a) == k) = false :=
      fun a ha => h a (List.mem_cons_of_mem b ha)
    show getKey (rest.foldl (memStep mem) (memStep mem d b)) k = getKey d k
    rw [ih (memStep mem d b) hrest]
    unfold memStep
    cases lookupKey mem.stats b with
    | some n => exact getKey_setKey_ne d _ hb
    | none => rfl

theorem hasKey_memSteps_mono (mem : Mem) (attrs : List String) (d : Record) {k : String}
    (h : hasKey d k = true) :
    hasKey (attrs.foldl (memStep mem) d) k = true := by
  induction attrs generalizing d with
  | nil => exact h
  | cons b rest ih =>
    show hasKey (rest.foldl (memStep mem) (memStep mem d b)) k = true
    apply ih
    unfold memStep
    cases lookupKey mem.stats b with
    | some n => exact hasKey_setKey_mono d _ _ _ h
    | none => exact h

/-- Where the memory loop leaves key `mem.<a>` when `a` occurs in a
duplicate-free attribute list: formatted when the stat is supported,
untouched otherwise. -/
theorem getKey_memSteps_mem (mem : Mem) {attrs : List String} {a : String} (d : Record)
    (hnd : attrs.Nodup) (ha : a ∈ attrs) :
    getKey (attrs.foldl (memStep mem) d) ("mem." ++ a) =
      (match lookupKey mem.stats a with
       | some n => some (.str (naturalsizeBinary n))
       | none => getKey d ("mem." ++ a)) := by
  induction attrs generalizing d with
  | nil => cases ha
  | cons b rest ih =>
    rcases List.mem_cons.mp ha with rfl | hmem
    · have hnotin : a ∉ rest := (List.nodup_cons.mp hnd).1
      have hallne : ∀ x ∈ rest, (("mem." ++ x) == ("mem." ++ a)) = false := by
        intro x hx
        rw [memKey_beq]
        exact strBeqFalse_of_ne (fun hxa => hnotin (hxa ▸ hx))
      show getKey (rest.foldl (memStep mem) (memStep mem d a)) ("mem." ++ a) = _
      rw [getKey_memSteps_ne mem rest _ hallne]
      unfold memStep
      cases lookupKey mem.stats a with
      | some n => simp [getKey_setKey_self]
      | none => rfl
    · have hba : a ≠ b := by
        intro hE
        exact (List.nodup_cons.mp hnd).1 (hE ▸ hmem)
      show getKey (rest.foldl (memStep mem) (memStep mem d b)) ("mem." ++ a) = _
      rw [ih (memStep mem d b) (List.nodup_cons.mp hnd).2 hmem]
      have hne : (("mem." ++ b) == ("mem." ++ a)) = false := by
        rw [memKey_beq]
        exact strBeqFalse_of_ne (fun hE => hba hE.symm)
      have hstep : getKey (memStep mem d b) ("mem." ++ a) = getKey d ("mem." ++ a) := by
        unfold memStep
        cases lookupKey mem.stats b with
        | some n => exact getKey_setKey_ne d _ hne
        | none => rfl
      rw [hstep]

theorem getKey_platformVersion_ne (env : Env) (uname : Uname) (d : Record) {k : String}
    (h : (("platform.version" : String) == k) = false) :
    getKey (platformVersion env uname d) k = getKey d k := by
  unfold platformVersion
  by_cases h1 : env.sysPlatform == "darwin" <;>
    by_cases h2 : env.sysPlatform == "win32" <;>
      simp [h1, h2, getKey_setKey_ne d _ h]

theorem hasKey_platformVersion_mono (env : Env) (uname : Uname) (d : Record) {k : String}
    (h : hasKey d k = true) :
    hasKey (platformVersion env uname d) k = true := by
  unfold platformVersion
  by_cases h1 : env.sysPlatform == "darwin" <;>
    by_cases h2 : env.sysPlatform == "win32" <;>
      simp [h1, h2, hasKey_setKey_mono d _ _ _ h]

theorem getKey_applyReleaseLine_ne (d : Record) (line : String) {k : String}
    (h : lineDefines line k = false) :
    getKey (applyReleaseLine d line) k = getKey d k := by
  unfold applyReleaseLine
  unfold lineDefines at h
  cases hs : splitFirst '=' line.data with
  | none => rfl
  | some p =>
    rw [hs] at h
    exact getKey_setKey_ne d _ h

theorem hasKey_applyReleaseLine_mono (d : Record) (line : String) {k : String}
    (h : hasKey d k = true) :
    hasKey (applyReleaseLine d line) k = true := by
  unfold applyReleaseLine
  cases splitFirst '=' line.data with
  | none => exact h
  | some p => exact hasKey_setKey_mono d _ _ _ h

theorem getKey_mergeReleaseLines_ne (d : Record) (lines : List (List Char)) {k : String}
    (h : ∀ l ∈ lines, lineDefines (ofChars l) k = false) :
    getKey (mergeReleaseLines d lines) k = getKey d k := by
  induction lines generalizing d with
  | nil => rfl
  | cons l rest ih =>
    show getKey (mergeReleaseLines (applyReleaseLine d (ofChars l)) rest) k = getKey d k
    rw [ih _ (fun x hx => h x (List.mem_cons_of_mem l hx))]
    exact getKey_applyReleaseLine_ne d _ (h l (List.mem_cons_self l rest))

theorem hasKey_mergeReleaseLines_mono (d : Record) (lines : List (List Char)) {k : String}
    (h : hasKey d k = true) :
    hasKey (mergeReleaseLines d lines) k = true := by
  induction lines generalizing d with
  | nil => exact h
  | cons l rest ih =>
    exact ih _ (hasKey_applyReleaseLine_mono d _ h)

theorem getKey_mergeReleaseContent_ne (d : Record) (content : String) {k : String}
    (h : contentDefines content k = false) :
    getKey (mergeReleaseContent d content) k = getKey d k := by
  unfold contentDefines at h
  rw [List.any_eq_false] at h
  exact getKey_mergeReleaseLines_ne d _ (fun l hl => by simpa using h l hl)

theorem hasKey_mergeReleaseContent_mono (d : Record) (content : String) {k : String}
    (h : hasKey d k = true) :
    hasKey (mergeReleaseContent d content) k = true :=
  hasKey_mergeReleaseLines_mono d _ h

theorem getKey_mergeReleaseFiles_ne (d : Record) (files : List FileRead) {k : String}
    (h : files.any (fun f => fileDefines f k) = false) :
    getKey (mergeReleaseFiles d files) k = getKey d k := by
  induction files generalizing d with
  | nil => rfl
  | cons f rest ih =>
    rw [List.any_cons, Bool.or_eq_false_iff] at h
    cases f with
    | none => rfl
    | some c =>
      show getKey (mergeReleaseFiles (mergeReleaseContent d c) rest) k = getKey d k
      rw [ih _ h.2]
      exact getKey_mergeReleaseContent_ne d c (by simpa [fileDefines] using h.1)

theorem hasKey_mergeReleaseFiles_mono (d : Record) (files : List FileRead) {k : String}
    (h : hasKey d k = true) :
    hasKey (mergeReleaseFiles d files) k = true := by
  induction files generalizing d with
  | nil => exact h
  | cons f rest ih =>
    cases f with
    | none => exact h
    | some c => exact ih _ (hasKey_mergeReleaseContent_mono d c h)

theorem applyOverrides_none (d : Record) : applyOverrides d none none none = d := rfl

/- ### The shape of `humanize.naturalsize(..., binary=True)` output -/

theorem splitCharAll_ne_nil (c : Char) (cs : List Char) : splitCharAll c cs ≠ [] := by
  cases cs with
  | nil => simp [splitCharAll]
  | cons a as =>
    unfold splitCharAll
    cases h : splitCharAll c as with
    | nil => simp
    | cons x xs =>
      by_cases hc : a == c <;> simp [hc]

theorem splitCharAll_noSep {cs : List Char} {c : Char}
    (h : cs.all (fun x => !(x == c)) = true) : splitCharAll c cs = [cs] := by
  induction cs with
  | nil => rfl
  | cons a as ih =>
    rw [List.all_cons, Bool.and_eq_true] at h
    unfold splitCharAll
    rw [ih h.2]
    simp only [Bool.not_eq_eq_eq_not, Bool.not_true] at h
    simp [h.1]

theorem splitCharAll_sep {a : List Char} (b : List Char) {c : Char}
    (ha : a.all (fun x => !(x == c)) = true) :
    splitCharAll c (a ++ c :: b) = a :: splitCharAll c b := by
  induction a with
  | nil =>
    show splitCharAll c (c :: b) = [] :: splitCharAll c b
    cases h : splitCharAll c b with
    | nil => exact absurd h (splitCharAll_ne_nil c b)
    | cons x xs =>
      conv_lhs => rw [splitCharAll, h]
      simp
  | cons x xs ih =>
    rw [List.all_cons, Bool.and_eq_true] at ha
    have hx : (x == c) = false := by
      simpa using ha.1
    show splitCharAll c (x :: (xs ++ c :: b)) = _
    conv_lhs => rw [splitCharAll, ih ha.2]
    simp [hx]

theorem numChar_not_space {c : Char} (h : (c.isDigit || c == '.') = true) :
    (c == ' ') = false := by
  by_cases hc : c == ' '
  · rcases eq_of_beq hc with rfl
    simp at h
  · simpa using hc

theorem stringEta (s : String) : ofChars s.data = s := rfl

theorem isSizeString_parts (num unit : String) (h1 : isNumChars num.data = true)
    (h3 : sizeUnits.contains unit = true)
    (h4 : unit.data.all (fun c => !(c == ' ')) = true) :
    isSizeString (num ++ " " ++ unit) = true := by
  have hnum : num.data.all (fun c => !(c == ' ')) = true := by
    unfold isNumChars at h1
    rw [Bool.and_eq_true] at h1
    rw [List.all_eq_true] at h1 ⊢
    exact fun c hc => by
      rw [numChar_not_space (h1.2 c hc)]
      rfl
  have hdata : (num ++ " " ++ unit).data = num.data ++ ' ' :: unit.data := by
    rw [dataAppend, dataAppend]
    simp
  have h3' : unit ∈ sizeUnits := by simpa using h3
  unfold isSizeString
  rw [hdata, splitCharAll_sep unit.data hnum, splitCharAll_noSep h4]
  simp [h1, stringEta, h3']

theorem digitChar_isDigit {m : Nat} (h : m < 10) : (Nat.digitChar m).isDigit = true := by
  interval_cases m <;> decide

theorem natDigsAux_digits (fuel : Nat) : ∀ n, (natDigsAux fuel n).all (fun c => c.isDigit) = true := by
  induction fuel with
  | zero => intro n; rfl
  | succ fuel ih =>
    intro n
    unfold natDigsAux
    by_cases hn : n == 0
    · simp [hn]
    · simp only [hn, Bool.false_eq_true, if_false, List.all_append, Bool.and_eq_true]
      exact ⟨ih (n / 10), by simp [digitChar_isDigit (Nat.mod_lt n (by omega))]⟩

theorem natStr_digits (n : Nat) : (natStr n).data.all (fun c => c.isDigit) = true := by
  unfold natStr
  by_cases hn : n == 0
  · simp [hn]
  · simp only [hn, Bool.false_eq_true, if_false]
    exact natDigsAux_digits (n + 1) n

theorem natStr_ne_nil (n : Nat) : (natStr n).data.isEmpty = false := by
  unfold natStr
  by_cases hn : n == 0
  · simp [hn]
  · simp only [hn, Bool.false_eq_true, if_false]
    show (natDigsAux (n + 1) n).isEmpty = false
    unfold natDigsAux
    simp [hn]

theorem fmtOneDecimal_numChars (t : Nat) : isNumChars (fmtOneDecimal t).data = true := by
  have hdata : (fmtOneDecimal t).data =
      (natStr (t / 10)).data ++ '.' :: (natStr (t % 10)).data := by
    unfold fmtOneDecimal
    rw [dataAppend, dataAppend]
    simp
  unfold isNumChars
  rw [hdata]
  have h1 := natStr_digits (t / 10)
  have h2 := natStr_digits (t % 10)
  rw [List.all_eq_true] at h1 h2
  have hne := natStr_ne_nil (t / 10)
  rw [Bool.and_eq_true]
  constructor
  · cases hcs : (natStr (t / 10)).data with
    | nil => rw [hcs] at hne; simp at hne
    | cons x xs => simp
  · rw [List.all_eq_true]
    intro c hc
    rcases List.mem_append.mp hc with hl | hr
    · simp [h1 c hl]
    · rcases List.mem_cons.mp hr with rfl | hr'
      · rfl
      · simp [h2 c hr']

theorem nsFrom_size (sufs : List String) (n : Nat) : ∀ d : Nat,
    (∀ s ∈ sufs, sizeUnits.contains s = true ∧ s.data.all (fun c => !(c == ' ')) = true) →
    isSizeString (nsFrom sufs n d) = true := by
  induction sufs with
  | nil =>
    intro d _
    exact isSizeString_parts _ "YiB" (fmtOneDecimal_numChars _) (by decide) (by decide)
  | cons s rest ih =>
    intro d h
    have hs := h s (List.mem_cons_self s rest)
    cases rest with
    | nil =>
      exact isSizeString_parts _ s (fmtOneDecimal_numChars _) hs.1 hs.2
    | cons s' rest' =>
      show isSizeString (if n < d * 1024 then _ else nsFrom (s' :: rest') n (d * 1024)) = true
      by_cases hlt : n < d * 1024
      · rw [if_pos hlt]
        exact isSizeString_parts _ s (fmtOneDecimal_numChars _) hs.1 hs.2
      · rw [if_neg hlt]
        exact ih (d * 1024) (fun x hx => h x (List.mem_cons_of_mem s hx))

/-- Every output of the `humanize.naturalsize(..., binary=True)` model has
the `<number><space><unit>` shape the specification promises. -/
theorem naturalsizeBinary_size (n : Nat) : isSizeString (naturalsizeBinary n) = true := by
  unfold naturalsizeBinary
  by_cases h1 : n == 1
  · simp [h1]
    rfl
  · rw [if_neg (by simpa using h1)]
    by_cases h2 : n < 1024
    · rw [if_pos h2]
      apply isSizeString_parts _ "Bytes" _ (by decide) (by decide)
      unfold isNumChars
      rw [Bool.and_eq_true, natStr_ne_nil n]
      refine ⟨rfl, ?_⟩
      have hd := natStr_digits n
      rw [List.all_eq_true] at hd ⊢
      intro c hc
      simp [hd c hc]
    · rw [if_neg h2]
      exact nsFrom_size binSuffixes n 1024 (by decide)

/-- Successful calls decompose into the probe results and the assembled,
override-adjusted record. -/
theorem systeminfo_eq_ok {env : Env} {info : Option Record} {user node : Option String}
    {r : Record} (h : systeminfo env info user node = .ok r) :
    ∃ uname mem cpuCount,
      env.unameProbe = some uname ∧ env.virtualMemoryProbe = some mem ∧
      env.mpCpuCountProbe = some cpuCount ∧
      r = applyOverrides (probedRecord env uname mem cpuCount) info user node := by
  unfold systeminfo at h
  cases hu : env.unameProbe with
  | none => rw [hu] at h; exact absurd h (by simp)
  | some uname =>
    cases hm : env.virtualMemoryProbe with
    | none => rw [hu, hm] at h; exact absurd h (by simp)
    | some mem =>
      cases hc : env.mpCpuCountProbe with
      | none => rw [hu, hm, hc] at h; exact absurd h (by simp)
      | some cpuCount =>
        rw [hu, hm, hc] at h
        simp only [Except.ok.injEq] at h
        exact ⟨uname, mem, cpuCount, rfl, rfl, rfl, h.symm⟩

/- ### Override lemmas -/

theorem getKey_applyUserNode_ne (d : Record) (user node : Option String) {k : String}
    (hu : (("user" : String) == k) = false)
    (hn : (("uname.node" : String) == k) = false) :
    getKey (applyUserNode d user node) k = getKey d k := by
  unfold applyUserNode
  cases user with
  | none =>
    cases node with
    | none => rfl
    | some n => exact getKey_setKey_ne d _ hn
  | some u =>
    cases node with
    | none => exact getKey_setKey_ne d _ hu
    | some n =>
      show getKey (setKey (setKey d "user" (.str u)) "uname.node" (.str n)) k = _
      rw [getKey_setKey_ne _ _ hn]
      exact getKey_setKey_ne d _ hu

theorem getKey_applyUserNode_user (d : Record) (node : Option String) (u : String) :
    getKey (applyUserNode d (some u) node) "user" = some (.str u) := by
  unfold applyUserNode
  cases node with
  | none => exact getKey_setKey_self d _ _
  | some n =>
    show getKey (setKey (setKey d "user" (.str u)) "uname.node" (.str n)) "user" = _
    rw [getKey_setKey_ne _ _ (by decide)]
    exact getKey_setKey_self d _ _

theorem getKey_applyUserNode_node (d : Record) (user : Option String) (n : String) :
    getKey (applyUserNode d user (some n)) "uname.node" = some (.str n) := by
  unfold applyUserNode
  cases user with
  | none => exact getKey_setKey_self d _ _
  | some u => exact getKey_setKey_self _ _ _

theorem hasKey_applyUserNode_mono (d : Record) (user node : Option String) {k : String}
    (h : hasKey d k = true) :
    hasKey (applyUserNode d user node) k = true := by
  unfold applyUserNode
  cases user with
  | none =>
    cases node with
    | none => exact h
    | some n => exact hasKey_setKey_mono d _ _ _ h
  | some u =>
    cases node with
    | none => exact hasKey_setKey_mono d _ _ _ h
    | some n => exact hasKey_setKey_mono _ _ _ _ (hasKey_setKey_mono d _ _ _ h)

/- ### Base-record and assembled-record lemmas -/

theorem getKey_baseData_cpu_count (env : Env) (uname : Uname) (mem : Mem) (c : Nat) :
    getKey (baseData env uname mem c) "cpu_count" = some (.int c) := rfl

theorem getKey_baseData_cpu_cores (env : Env) (uname : Uname) (mem : Mem) (c : Nat) :
    getKey (baseData env uname mem c) "cpu_cores" = some (coresValue env.cpuCountPhysProbe) := rfl

theorem getKey_baseData_memAttr (env : Env) (uname : Uname) (mem : Mem) (c : Nat)
    {a : String} (ha : a ∈ memAttributes) :
    getKey (baseData env uname mem c) ("mem." ++ a) = none := by
  fin_cases ha <;> rfl

theorem coresValue_shape (p : Option (Option Nat)) :
    (∃ m, coresValue p = .int m) ∨ coresValue p = .pynone ∨ coresValue p = .str "unkown" := by
  match p with
  | none => exact Or.inr (Or.inr rfl)
  | some none => exact Or.inr (Or.inl rfl)
  | some (some m) => exact Or.inl ⟨m, rfl⟩

theorem hasKey_probedRecord_of_base (env : Env) (uname : Uname) (mem : Mem) (c : Nat)
    {k : String} (h : hasKey (baseData env uname mem c) k = true) :
    hasKey (probedRecord env uname mem c) k = true := by
  unfold probedRecord
  cases env.releaseFilesProbe with
  | none =>
    exact hasKey_platformVersion_mono env uname _ (hasKey_memSteps_mono mem _ _ h)
  | some files =>
    exact hasKey_mergeReleaseFiles_mono _ files
      (hasKey_platformVersion_mono env uname _ (hasKey_memSteps_mono mem _ _ h))

/-- Keys untouched by the memory loop, `platform.version` and the
release-file merge read through `probedRecord` to the base record. -/
theorem getKey_probedRecord_ne (env : Env) (uname : Uname) (mem : Mem) (c : Nat)
    {k : String}
    (hmem : ∀ a ∈ memAttributes, (("mem." ++ a) == k) = false)
    (hpv : (("platform.version" : String) == k) = false)
    (hrel : envReleaseDefines env k = false) :
    getKey (probedRecord env uname mem c) k = getKey (baseData env uname mem c) k := by
  unfold probedRecord
  unfold envReleaseDefines at hrel
  cases hf : env.releaseFilesProbe with
  | none =>
    rw [getKey_platformVersion_ne env uname _ hpv]
    exact getKey_memSteps_ne mem _ _ hmem
  | some files =>
    rw [hf] at hrel
    rw [getKey_mergeReleaseFiles_ne _ files hrel,
      getKey_platformVersion_ne env uname _ hpv]
    exact getKey_memSteps_ne mem _ _ hmem

/-- A missing `=` makes `splitFirst '='` fail. -/
theorem splitFirst_eq_none {c : Char} {cs : List Char}
    (h : containsSub [c] cs = false) : splitFirst c cs = none := by
  induction cs with
  | nil => rfl
  | cons a as ih =>
    unfold containsSub startsWithCh at h
    rw [Bool.or_eq_false_iff] at h
    have hca : (c == a) = false := by
      rcases Bool.and_eq_false_iff.mp h.1 with h' | h'
      · exact h'
      · exact absurd h' (by simp [startsWithCh])
    have hac : (a == c) = false := by
      rw [beq_eq_false_iff_ne] at hca ⊢
      exact fun hE => hca hE.symm
    unfold splitFirst
    rw [hac, ih h.2]
    simp

/- ### Claim theorems -/

/-- C1, counterexample: the claim says no probe failure ever propagates out of
`systeminfo`, but `platform.uname()` (line 159) sits outside every `try`; on
an environment where that probe raises, the call propagates the exception
instead of returning a mapping. -/
theorem systeminfo_uname_failure_propagates :
    envUnameRaises.unameProbe = none ∧
    systeminfo envUnameRaises none none none = .error () :=
  ⟨rfl, rfl⟩

/-- C1, amended: whenever the three unguarded probes — `platform.uname()`,
`psutil.virtual_memory()` and `multiprocessing.cpu_count()` — succeed,
`systeminfo` returns a mapping for every combination of inputs and every
outcome of all remaining probes (which are each fault-isolated, yielding
omitted, empty or sentinel fields). -/
theorem systeminfo_total_when_unguarded_probes_succeed :
    ∀ (env : Env) (info : Option Record) (user node : Option String),
      env.unameProbe.isSome = true →
      env.virtualMemoryProbe.isSome = true →
      env.mpCpuCountProbe.isSome = true →
      returnsRecord (systeminfo env info user node) = true := by
  intro env info user node h1 h2 h3
  unfold systeminfo
  cases hu : env.unameProbe with
  | none => rw [hu] at h1; exact absurd h1 (by simp)
  | some u =>
    cases hm : env.virtualMemoryProbe with
    | none => rw [hm] at h2; exact absurd h2 (by simp)
    | some m =>
      cases hc : env.mpCpuCountProbe with
      | none => rw [hc] at h3; exact absurd h3 (by simp)
      | some c => rfl

/-- C1, witness: on the healthy Linux host the call returns a record. -/
theorem systeminfo_total_when_unguarded_probes_succeed_witness :
    returnsRecord (systeminfo envLinux none none none) = true :=
  systeminfo_total_when_unguarded_probes_succeed envLinux none none none
    (by rfl) (by rfl) (by rfl)

/-- C2, counterexample: with no environment signal at all, `sys_user` returns
the string `"None"` (line 82), not the claimed `"unknown"` sentinel. -/
theorem sys_user_sentinel_not_unknown :
    sys_user envNoSignals = "None" ∧ sys_user envNoSignals ≠ "unknown" :=
  ⟨rfl, by decide⟩

/-- C2, amended: `sys_user` never raises and always returns a non-null
string; when no environment signal matches (no `COLAB_GPU` marker, no win32
`USERNAME`, no `USER`, and `HOME` is not `/root`) it returns the fixed
sentinel `"None"`. -/
theorem sys_user_defaults_to_None :
    ∀ env : Env,
      lookupKey env.environ "COLAB_GPU" = none →
      (env.sysPlatform = "win32" → lookupKey env.environ "USERNAME" = none) →
      lookupKey env.environ "USER" = none →
      (∀ h, lookupKey env.environ "HOME" = some h → h ≠ "/root") →
      sys_user env = "None" := by
  intro env h1 h2 h3 h4
  have hwin : (if env.sysPlatform == "win32" then lookupKey env.environ "USERNAME"
      else none) = none := by
    by_cases hw : env.sysPlatform == "win32"
    · rw [if_pos hw]
      exact h2 (eq_of_beq hw)
    · rw [if_neg hw]
  unfold sys_user
  rw [h1, hwin, h3]
  cases hh : lookupKey env.environ "HOME" with
  | none => simp
  | some h => simp [strBeqFalse_of_ne (h4 h hh)]

/-- C2, witness: the amended default at the signal-free environment. -/
theorem sys_user_defaults_to_None_witness : sys_user envNoSignals = "None" :=
  sys_user_defaults_to_None envNoSignals rfl (fun h => absurd h (by decide)) rfl
    (fun h hh => by simp [envNoSignals, envLinux, lookupKey] at hh)

/-- C3 (code bug): on a Windows host `get_platform` returns `"windows"`, but
the CPU-description block compares it against `"win32"` (line 186), so the
`platform.processor()` branch is dead and the record's `cpu` is `""` even
though the processor-name probe answers; the branch itself would have
produced the name. -/
theorem systeminfo_windows_cpu_description_empty :
    get_platform envWindows = "windows" ∧
    envWindows.processorProbe =
      some "Intel64 Family 6 Model 142 Stepping 10, GenuineIntel" ∧
    cpuDescription envWindows "win32" =
      "Intel64 Family 6 Model 142 Stepping 10, GenuineIntel" ∧
    getKey (recOf (systeminfo envWindows none none none)) "cpu" = some (.str "") :=
  ⟨rfl, rfl, rfl, rfl⟩

/-- C4: release-file line parsing splits on the first `=` only, removes
spaces from the key, and skips lines without `=`: `"NAME=Ubuntu"` yields
`NAME ↦ Ubuntu`, `"VERSION ID=20.04"` yields `VERSIONID ↦ 20.04`, and an
`=`-free line leaves any record unchanged. -/
theorem release_line_parsing :
    ∀ (d : Record) (line : String),
      getKey (applyReleaseLine d "NAME=Ubuntu") "NAME" = some (.str "Ubuntu") ∧
      getKey (applyReleaseLine d "VERSION ID=20.04") "VERSIONID" =
        some (.str "20.04") ∧
      (containsSub ['='] line.data = false → applyReleaseLine d line = d) := by
  intro d line
  refine ⟨?_, ?_, ?_⟩
  · show getKey (setKey d "NAME" (.str "Ubuntu")) "NAME" = some (.str "Ubuntu")
    exact getKey_setKey_self d _ _
  · show getKey (setKey d "VERSIONID" (.str "20.04")) "VERSIONID" =
      some (.str "20.04")
    exact getKey_setKey_self d _ _
  · intro h
    unfold applyReleaseLine
    rw [splitFirst_eq_none h]

/-- C4, witness: the parsing facts at the empty record and a concrete
`=`-free line. -/
theorem release_line_parsing_witness :
    getKey (applyReleaseLine [] "NAME=Ubuntu") "NAME" = some (.str "Ubuntu") ∧
    applyReleaseLine [] "no equals sign" = [] :=
  ⟨(release_line_parsing [] "x").1,
   (release_line_parsing [] "no equals sign").2.2 (by decide)⟩

/-- C5: caller-supplied values win and are applied last in the order info,
then user, then node: an `info` mapping `cpu ↦ TestCPU` forces the record's
`cpu`, `user="alice"` forces `user`, and a supplied node forces `uname.node`,
regardless of every probed value. -/
theorem caller_overrides_win :
    (∀ (env : Env) (user node : Option String) (r : Record),
        systeminfo env (some [("cpu", Value.str "TestCPU")]) user node = .ok r →
        getKey r "cpu" = some (.str "TestCPU")) ∧
    (∀ (env : Env) (info : Option Record) (node : Option String) (r : Record),
        systeminfo env info (some "alice") node = .ok r →
        getKey r "user" = some (.str "alice")) ∧
    (∀ (env : Env) (info : Option Record) (user : Option String) (nd : String)
        (r : Record),
        systeminfo env info user (some nd) = .ok r →
        getKey r "uname.node" = some (.str nd)) := by
  refine ⟨?_, ?_, ?_⟩
  · intro env user node r h
    obtain ⟨u, m, c, _, _, _, hr⟩ := systeminfo_eq_ok h
    subst hr
    unfold applyOverrides
    rw [getKey_applyUserNode_ne _ user node (by decide) (by decide)]
    show getKey (setKey (probedRecord env u m c) "cpu" (.str "TestCPU")) "cpu" = _
    exact getKey_setKey_self _ _ _
  · intro env info node r h
    obtain ⟨u, m, c, _, _, _, hr⟩ := systeminfo_eq_ok h
    subst hr
    exact getKey_applyUserNode_user _ node "alice"
  · intro env info user nd r h
    obtain ⟨u, m, c, _, _, _, hr⟩ := systeminfo_eq_ok h
    subst hr
    exact getKey_applyUserNode_node _ user nd

/-- C5, witness: the three override forms evaluated on the Linux host. -/
theorem caller_overrides_win_witness :
    getKey rCpu "cpu" = some (.str "TestCPU") ∧
    getKey rUser "user" = some (.str "alice") ∧
    getKey rNode "uname.node" = some (.str "node9") :=
  ⟨caller_overrides_win.1 envLinux none none rCpu (by rfl),
   caller_overrides_win.2.1 envLinux none none rUser (by rfl),
   caller_overrides_win.2.2 envLinux none none "node9" rNode (by rfl)⟩

/-- C6: every record a plain `systeminfo()` call returns is non-empty and
contains at least the fixed base keys `cpu`, `cpu_count`, `uname.system`,
`user` and `mem.percent`, for every platform and every outcome of the
fault-isolated probes (missing data appears as an empty string or a
sentinel, never as a missing base key). -/
theorem systeminfo_contains_base_keys :
    ∀ (env : Env) (r : Record),
      systeminfo env none none none = .ok r →
      r ≠ [] ∧ hasKey r "cpu" = true ∧ hasKey r "cpu_count" = true ∧
        hasKey r "uname.system" = true ∧ hasKey r "user" = true ∧
        hasKey r "mem.percent" = true := by
  intro env r h
  obtain ⟨u, m, c, _, _, _, hr⟩ := systeminfo_eq_ok h
  rw [applyOverrides_none] at hr
  subst hr
  have hcpu : hasKey (probedRecord env u m c) "cpu" = true :=
    hasKey_probedRecord_of_base env u m c rfl
  exact ⟨hasKey_ne_nil hcpu, hcpu,
    hasKey_probedRecord_of_base env u m c rfl,
    hasKey_probedRecord_of_base env u m c rfl,
    hasKey_probedRecord_of_base env u m c rfl,
    hasKey_probedRecord_of_base env u m c rfl⟩

/-- C6, witness: the base keys on the healthy Linux host's record. -/
theorem systeminfo_contains_base_keys_witness :
    rPlain ≠ [] ∧ hasKey rPlain "cpu" = true ∧ hasKey rPlain "cpu_count" = true ∧
      hasKey rPlain "uname.system" = true ∧ hasKey rPlain "user" = true ∧
      hasKey rPlain "mem.percent" = true :=
  systeminfo_contains_base_keys envLinux rPlain (by rfl)

/-- C7: `get_platform` never fails: it answers `"macos"` on darwin,
`"windows"` on win32, `"raspberry"` when the platform is linux and the
OS-release content mentions raspbian, and in every other case — including a
failed OS-release read — falls back to the raw `sys.platform` string. -/
theorem get_platform_classifies :
    ∀ env : Env,
      (env.sysPlatform = "darwin" → get_platform env = "macos") ∧
      (env.sysPlatform = "win32" → get_platform env = "windows") ∧
      (∀ content, env.sysPlatform = "linux" → env.osRelease = some content →
          containsSub "raspbian".data content.data = true →
          get_platform env = "raspberry") ∧
      (env.sysPlatform ≠ "darwin" → env.sysPlatform ≠ "win32" →
          env.osRelease = none → get_platform env = env.sysPlatform) ∧
      (∀ content, env.sysPlatform ≠ "darwin" → env.sysPlatform ≠ "win32" →
          env.osRelease = some content →
          ¬(env.sysPlatform = "linux" ∧
              containsSub "raspbian".data content.data = true) →
          get_platform env = env.sysPlatform) := by
  intro env
  refine ⟨?_, ?_, ?_, ?_, ?_⟩
  · intro h
    simp [get_platform, h]
  · intro h
    simp [get_platform, h]
  · intro content h hc hr
    simp [get_platform, h, hc, hr]
  · intro h1 h2 h3
    simp [get_platform, strBeqFalse_of_ne h1, strBeqFalse_of_ne h2, h3]
  · intro content h1 h2 h3 h4
    by_cases hl : env.sysPlatform = "linux"
    · have hc : containsSub "raspbian".data content.data = false := by
        cases hcc : containsSub "raspbian".data content.data with
        | false => rfl
        | true => exact absurd ⟨hl, hcc⟩ h4
      simp [get_platform, strBeqFalse_of_ne h1, strBeqFalse_of_ne h2, h3, hc]
    · simp [get_platform, strBeqFalse_of_ne h1, strBeqFalse_of_ne h2, h3,
        strBeqFalse_of_ne hl]

/-- C7, witness: the four classification arms on concrete hosts. -/
theorem get_platform_classifies_witness :
    get_platform envDarwin = "macos" ∧
    get_platform envWindows = "windows" ∧
    get_platform envRasp = "raspberry" ∧
    get_platform envOther = "freebsd" :=
  ⟨(get_platform_classifies envDarwin).1 rfl,
   (get_platform_classifies envWindows).2.1 rfl,
   (get_platform_classifies envRasp).2.2.1 "NAME=Raspbian GNU/Linux\nID=raspbian\n"
     rfl rfl (by decide),
   (get_platform_classifies envOther).2.2.2.1 (by decide) (by decide) rfl⟩

/-- C8, counterexample: when `psutil.cpu_count(logical=False)` raises, the
record's `cpu_cores` is the string sentinel `"unkown"` (line 178), not an
integer, so not all of `cpu_count`/`cpu_cores` are integers in every
returned record. -/
theorem cpu_cores_not_integer_on_probe_failure :
    getKey (recOf (systeminfo envCoresRaise none none none)) "cpu_cores" =
      some (.str "unkown") ∧
    isIntValue (.str "unkown") = false :=
  ⟨rfl, rfl⟩

/-- C8, amended: in a record returned without overrides, and with no
release-file attribute shadowing these keys, `cpu_count` is always the
integer `multiprocessing.cpu_count()` returned, while `cpu_cores` is an
integer exactly when the physical-count probe answered with a number, and
otherwise `None` or the string sentinel `"unkown"`. -/
theorem cpu_count_integer_cpu_cores_shape :
    ∀ (env : Env) (r : Record) (c : Nat),
      systeminfo env none none none = .ok r →
      env.mpCpuCountProbe = some c →
      envReleaseDefines env "cpu_count" = false →
      envReleaseDefines env "cpu_cores" = false →
      getKey r "cpu_count" = some (.int c) ∧
      getKey r "cpu_cores" = some (coresValue env.cpuCountPhysProbe) ∧
      ((∃ m, coresValue env.cpuCountPhysProbe = .int m) ∨
        coresValue env.cpuCountPhysProbe = .pynone ∨
        coresValue env.cpuCountPhysProbe = .str "unkown") := by
  intro env r c h hc hr1 hr2
  obtain ⟨u, m, c', hu, hm, hc', hr⟩ := systeminfo_eq_ok h
  rw [applyOverrides_none] at hr
  subst hr
  rw [hc] at hc'
  injection hc' with hcc
  refine ⟨?_, ?_, coresValue_shape _⟩
  · rw [getKey_probedRecord_ne env u m c' (by decide) (by decide) hr1,
      getKey_baseData_cpu_count, hcc]
  · rw [getKey_probedRecord_ne env u m c' (by decide) (by decide) hr2]
    exact getKey_baseData_cpu_cores env u m c'

/-- C8, witness: the integer count and integer cores on the Linux host. -/
theorem cpu_count_integer_cpu_cores_shape_witness :
    getKey rPlain "cpu_count" = some (.int 8) ∧
    getKey rPlain "cpu_cores" = some (coresValue envLinux.cpuCountPhysProbe) :=
  ⟨(cpu_count_integer_cpu_cores_shape envLinux rPlain 8 (by rfl) rfl
      (by rfl) (by rfl)).1,
   (cpu_count_integer_cpu_cores_shape envLinux rPlain 8 (by rfl) rfl
      (by rfl) (by rfl)).2.1⟩

/-- C9, counterexample: a release-file line whose key collides with a memory
field overwrites it, so `mem.total` can be present with a value that is not
a binary-unit size string. -/
theorem mem_total_clobbered_by_release_file :
    getKey (recOf (systeminfo envMemClobber none none none)) "mem.total" =
      some (.str "banana") ∧
    isSizeString "banana" = false :=
  ⟨rfl, rfl⟩

/-- C9, amended: for each memory attribute (absent any release-file key
collision) the key `mem.<a>` is absent exactly when the underlying stat is
unsupported, and otherwise carries the `humanize` binary-unit rendering,
which always matches `<number><space><unit>`; each attribute depends only on
its own stat, and an unsupported stat never causes a raise. -/
theorem mem_fields_are_size_strings :
    ∀ (env : Env) (m : Mem) (a : String) (r : Record),
      env.virtualMemoryProbe = some m →
      a ∈ memAttributes →
      envReleaseDefines env ("mem." ++ a) = false →
      systeminfo env none none none = .ok r →
      (lookupKey m.stats a = none → getKey r ("mem." ++ a) = none) ∧
      (∀ n, lookupKey m.stats a = some n →
          getKey r ("mem." ++ a) = some (.str (naturalsizeBinary n)) ∧
          isSizeString (naturalsizeBinary n) = true) := by
  intro env m a r hvm ha hrel h
  obtain ⟨u, m', c, hu, hm, hc, hr⟩ := systeminfo_eq_ok h
  rw [applyOverrides_none] at hr
  subst hr
  rw [hvm] at hm
  injection hm with hmm
  subst hmm
  have hkey : getKey (probedRecord env u m c) ("mem." ++ a) =
      (match lookupKey m.stats a with
       | some n => some (Value.str (naturalsizeBinary n))
       | none => none) := by
    unfold probedRecord memFold
    unfold envReleaseDefines at hrel
    cases hf : env.releaseFilesProbe with
    | none =>
      rw [getKey_platformVersion_ne env u _ (platformKey_ne_memKey a),
        getKey_memSteps_mem m _ (by decide) ha,
        getKey_baseData_memAttr env u m c ha]
    | some files =>
      rw [hf] at hrel
      have hrel2 : files.any (fun f => fileDefines f ("mem." ++ a)) = false := hrel
      rw [getKey_mergeReleaseFiles_ne _ files hrel2,
        getKey_platformVersion_ne env u _ (platformKey_ne_memKey a),
        getKey_memSteps_mem m _ (by decide) ha,
        getKey_baseData_memAttr env u m c ha]
  constructor
  · intro hnone
    rw [hkey, hnone]
  · intro n hn
    rw [hkey, hn]
    exact ⟨rfl, naturalsizeBinary_size n⟩

/-- C9, witness: on the Linux host `mem.total` is the formatted size and
`mem.wired` (unsupported there) is absent. -/
theorem mem_fields_are_size_strings_witness :
    (getKey rPlain ("mem." ++ "total") =
        some (.str (naturalsizeBinary 17179869184)) ∧
      isSizeString (naturalsizeBinary 17179869184) = true) ∧
    getKey rPlain ("mem." ++ "wired") = none :=
  ⟨(mem_fields_are_size_strings envLinux mLinux "total" rPlain rfl (by decide)
      (by rfl) (by rfl)).2 17179869184 rfl,
   (mem_fields_are_size_strings envLinux mLinux "wired" rPlain rfl (by decide)
      (by rfl) (by rfl)).1 rfl⟩

/-- C10: `os_is_linux` and `os_is_pi` never both hold (they demand the
raspbian marker respectively absent and present in the same file content),
both are `False` whenever the OS-release read fails — so a Linux host with
an unreadable `/etc/os-release` is not recognised as Linux — and, being
total functions of the probed environment, neither raises. -/
theorem os_is_linux_pi_exclusive :
    ∀ env : Env,
      (os_is_linux env && os_is_pi env) = false ∧
      (env.osRelease = none → os_is_linux env = false ∧ os_is_pi env = false) := by
  intro env
  unfold os_is_linux os_is_pi
  cases ho : env.osRelease with
  | none => exact ⟨rfl, fun _ => ⟨rfl, rfl⟩⟩
  | some content =>
    refine ⟨?_, fun hcon => Option.noConfusion hcon⟩
    cases hc : containsSub "raspbian".data content.data <;> simp [hc]

/-- C10, witness: both predicates are false, and not jointly true, on the
host whose OS-release read fails. -/
theorem os_is_linux_pi_exclusive_witness :
    (os_is_linux envOther && os_is_pi envOther) = false ∧
    os_is_linux envOther = false ∧ os_is_pi envOther = false :=
  ⟨(os_is_linux_pi_exclusive envOther).1,
   (os_is_linux_pi_exclusive envOther).2 rfl⟩

end Sysinfo
